import Mathlib

/-!
Verification of the conversation/tool-use engine of a command-line agent
(single Go source file, `main.go`). The data model and the operations are
shallowly embedded below; external collaborators (stdin scanning, the HTTP
transport, JSON decoding) are passed in as explicit oracles, matching the
boundaries the program itself draws.
-/

-- ## String constants (Go: typed string constants `role`, `model`,
-- `stopReason`, `responseType`)

def User : String := "user"

def Assistant : String := "assistant"

def Opus : String := "claude-3-opus-20240229"

def Sonnet : String := "claude-3-sonnet-20240229"

def Haiku : String := "claude-3-haiku-20240307"

def EndTurn : String := "end_turn"

def MaxTokens : String := "max_tokens"

def StopSequence : String := "stop_sequence"

def text : String := "text"

def toolUse : String := "tool_use"

-- System prompt (Go: `SYS_PROMPT`); the wording is abridged here, with
-- punctuation elided, since no claim depends on the prompt text itself.
def SYS_PROMPT : String :=
  "You are Super Claude, an AI assistant designed to help employees and developers work with Super-Sod backend microservices. Use the tools provided to fulfil user requests. Give brief responses - we are in dev mode and many conversations are for testing purposes."

-- ## Data model

/-- Go: `type InputSchema struct`. `Properties` is a JSON object mapping
property names to property schemas; schemas are opaque here. -/
structure InputSchema where
  type : String
  properties : List (String × String)
  requires : List String
deriving DecidableEq

/-- Go: `type Tool struct`. -/
structure Tool where
  name : String
  description : String
  inputSchema : InputSchema
deriving DecidableEq

/-- Go: `type Message struct {Role role; Content string}`. -/
structure Message where
  role : String
  content : String
deriving DecidableEq

/-- Go: `type Conversation []Message`. -/
abbrev Conversation := List Message

/-- Go: `type Request struct`. -/
structure Request where
  model : String
  messages : Conversation
  maxTokens : Nat
  system : String
  tools : List Tool
deriving DecidableEq

/-- Go: `type ResponseMessage struct` — one content block of a model reply.
The `type` discriminator is an arbitrary string (the decoder accepts any
value); `input` (the tool arguments) is opaque JSON, kept as a string. -/
structure ResponseMessage where
  type : String
  text : String
  id : String
  name : String
  input : String
deriving DecidableEq

/-- Go: the anonymous `Usage` struct inside `Response`. -/
structure Usage where
  inputTokens : Nat
  outputTokens : Nat
deriving DecidableEq

/-- Go: `type Response struct`. -/
structure Response where
  id : String
  type : String
  role : String
  content : List ResponseMessage
  model : String
  stopReason : String
  stopSequence : String
  usage : Usage
deriving DecidableEq

-- ## Operations

/-- Go `strings.ToLower`, modelled charwise for ASCII letters — the only
case distinctions the exit-sentinel comparison can exercise. -/
def toLower (s : String) : String :=
  String.mk (s.data.map (fun ch =>
    if 65 ≤ ch.toNat ∧ ch.toNat ≤ 90 then Char.ofNat (ch.toNat + 32) else ch))

/-- Go: `func (c *Conversation) AppendResponse(msg ResponseMessage)`.
Appends an assistant message when the block is a text block; any other
block kind leaves the conversation untouched. -/
def appendResponse (c : Conversation) (msg : ResponseMessage) : Conversation :=
  if msg.type = text then c ++ [⟨Assistant, msg.text⟩] else c

/-- The request built inside `Converse` for user line `input`:
`&Request{Model: Opus, Messages: *c, MaxTokens: 2048, System: SYS_PROMPT,
Tools: *tools}`, after the user message has been appended. -/
def builtRequest (c : Conversation) (tools : List Tool) (input : String) : Request :=
  ⟨Opus, c ++ [⟨User, input⟩], 2048, SYS_PROMPT, tools⟩

/-- Result of one `scanner.Scan()` call: either a line or exhausted input. -/
inductive ScanResult where
  | eof
  | line (s : String)
deriving DecidableEq

/-- How one iteration of the `Converse` loop ends. -/
inductive StepOutcome where
  /-- `break` out of the loop: EOF or the exit sentinel. -/
  | sessionEnd
  /-- `Post` returned an error; it is printed and the loop continues. -/
  | errorReported (e : String)
  /-- The response was printed and `AppendResponse(resp.Content[0])` ran;
  the loop continues. -/
  | answered
  /-- `resp.Content[0]` on an empty content list: index-out-of-range panic. -/
  | crashed
deriving DecidableEq

/-- The loop continues to the next prompt after this outcome. -/
def sessionContinues : StepOutcome → Bool
  | StepOutcome.errorReported _ => true
  | StepOutcome.answered => true
  | _ => false

/-- The state after one iteration of `Converse`: the conversation, the
request sent during the iteration (if any), and how the iteration ended. -/
structure StepResult where
  conversation : Conversation
  request : Option Request
  outcome : StepOutcome
deriving DecidableEq

/-- One iteration of `func (c *Conversation) Converse`: scan a line
(`scan` is the scanner's answer for this prompt), test the exit sentinel,
append the user message, build and post the request (`post` is the
transport oracle, standing for `req.Post()`), and on success hand
`resp.Content[0]` to `AppendResponse`. -/
def converseStep (c : Conversation) (tools : List Tool) (scan : ScanResult)
    (post : Request → Except String Response) : StepResult :=
  match scan with
  | ScanResult.eof => ⟨c, none, StepOutcome.sessionEnd⟩
  | ScanResult.line input =>
    if toLower input = "exit" then
      ⟨c, none, StepOutcome.sessionEnd⟩
    else
      let req := builtRequest c tools input
      match post req with
      | Except.error e => ⟨c ++ [⟨User, input⟩], some req, StepOutcome.errorReported e⟩
      | Except.ok resp =>
        match resp.content with
        | [] => ⟨c ++ [⟨User, input⟩], some req, StepOutcome.crashed⟩
        | first :: _ =>
          ⟨appendResponse (c ++ [⟨User, input⟩]) first, some req, StepOutcome.answered⟩

/-- The `Converse` loop over a script of scanner answers and transport
oracles, one pair per iteration; the loop stops early when an iteration
breaks out (or panics). Returns the final conversation. -/
def converseRun (c : Conversation) (tools : List Tool)
    (script : List (ScanResult × (Request → Except String Response))) : Conversation :=
  match script with
  | [] => c
  | (scan, post) :: rest =>
    let r := converseStep c tools scan post
    if sessionContinues r.outcome then converseRun r.conversation tools rest
    else r.conversation

-- ## Transport (Go: `func (r *Request) Post() (*Response, error)`)

/-- An HTTP reply as `Post` sees it: status code and body. Reading the
body is modelled as always succeeding. -/
structure HttpReply where
  status : Nat
  body : String
deriving DecidableEq

/-- Go: `Request.Post`. `transport` stands for `client.Do` (error =
network failure), `decode` for `json.NewDecoder(resp.Body).Decode`.
The `json.Marshal` and `http.NewRequest` error paths are unreachable for
these fixed types and the constant URL and are omitted. A status other
than 200 (`http.StatusOK`) is an error carrying the response body. -/
def postRequest (transport : Request → Except String HttpReply)
    (decode : String → Except String Response) (r : Request) : Except String Response :=
  match transport r with
  | Except.error e => Except.error ("failed to send request: " ++ e)
  | Except.ok reply =>
    if reply.status ≠ 200 then
      Except.error ("API request failed with status code: " ++ toString reply.status
        ++ ", response body: " ++ reply.body)
    else
      match decode reply.body with
      | Except.error e => Except.error ("failed to decode response: " ++ e)
      | Except.ok respData => Except.ok respData

/-- The single tool declaration the program loads at startup
(`tools/postal_codes.json`); the file itself is outside the source, so
this is a representative value — no claim depends on its contents. -/
def postalTool : Tool :=
  ⟨"lookup_postal_code", "Look up the postal code for a city",
    ⟨"object", [("city", "string")], ["city"]⟩⟩

-- ## Concrete responses used in closed theorems

/-- A reply whose single content block is a tool invocation naming the
registered tool (Scenario C shape). -/
def scenarioCResponse : Response :=
  ⟨"msg_01", "message", Assistant,
    [⟨toolUse, "", "t1", "lookup_postal_code", "city: Atlanta"⟩],
    Opus, "tool_use", "", ⟨10, 5⟩⟩

/-- A reply whose single content block invokes a tool absent from the
registry. -/
def unknownToolResponse : Response :=
  ⟨"msg_02", "message", Assistant,
    [⟨toolUse, "", "t2", "no_such_tool", "x: 1"⟩],
    Opus, "tool_use", "", ⟨10, 5⟩⟩

/-- A reply with a single text block. -/
def textOnlyResponse : Response :=
  ⟨"msg_03", "message", Assistant, [⟨text, "Hello", "", "", ""⟩],
    Opus, EndTurn, "", ⟨3, 2⟩⟩

/-- A reply whose single content block has an unrecognized kind. -/
def unknownKindResponse : Response :=
  ⟨"msg_04", "message", Assistant, [⟨"thinking", "hmm", "", "", ""⟩],
    Opus, EndTurn, "", ⟨3, 2⟩⟩

-- ## Shared helper lemmas

theorem appendResponse_extends (c : Conversation) (msg : ResponseMessage) :
    c <+: appendResponse c msg := by
  unfold appendResponse
  split
  · exact List.prefix_append c _
  · exact List.prefix_refl c

theorem converseStep_extends (c : Conversation) (tools : List Tool)
    (scan : ScanResult) (post : Request → Except String Response) :
    c <+: (converseStep c tools scan post).conversation := by
  cases scan with
  | eof => simp [converseStep]
  | line input =>
    by_cases h : toLower input = "exit"
    · simp [converseStep, h]
    · cases hp : post (builtRequest c tools input) with
      | error e => simp [converseStep, h, hp]
      | ok resp =>
        cases hc : resp.content with
        | nil => simp [converseStep, h, hp, hc]
        | cons first rest =>
          simp only [converseStep, h, if_neg h, hp, hc]
          exact (List.prefix_append c _).trans (appendResponse_extends _ first)

theorem converseRun_extends (tools : List Tool)
    (script : List (ScanResult × (Request → Except String Response))) :
    ∀ c : Conversation, c <+: converseRun c tools script := by
  induction script with
  | nil => intro c; simp [converseRun]
  | cons hd rest ih =>
    intro c
    obtain ⟨scan, post⟩ := hd
    simp only [converseRun]
    by_cases h : sessionContinues (converseStep c tools scan post).outcome = true
    · simp only [h, if_true]
      exact (converseStep_extends c tools scan post).trans (ih _)
    · simp only [h, if_false]
      exact converseStep_extends c tools scan post

-- ## Claim theorems

/-- C1: the claim says a registered tool invocation in a response makes
the controller dispatch the executor, append a tool-result message carrying
the invocation id, and send a second request before surfacing text. The
code does none of this: evaluated on a response whose only block is
`tool_use t1 lookup_postal_code` with the tool registered, the iteration
leaves the conversation holding only the user message (no tool-result
message) and ends the turn (`answered`), so no second request is sent
within the turn. -/
theorem tool_invocation_not_dispatched :
    (converseStep [] [postalTool] (ScanResult.line "Postal code for Atlanta?")
        (fun _ => Except.ok scenarioCResponse)).conversation
      = [⟨User, "Postal code for Atlanta?"⟩]
    ∧ (converseStep [] [postalTool] (ScanResult.line "Postal code for Atlanta?")
        (fun _ => Except.ok scenarioCResponse)).outcome = StepOutcome.answered := by
  constructor <;> rfl

/-- C2: the claim says an invocation of an unregistered tool yields a
failure ToolResult fed back to the model as a tool-result message, and is
never fatal. On the code, the never-fatal half holds (the loop continues),
but no failure result is produced: the block is ignored outright and the
conversation holds only the user message. -/
theorem unknown_tool_not_reported_back :
    (converseStep [] [postalTool] (ScanResult.line "use the missing tool")
        (fun _ => Except.ok unknownToolResponse)).conversation
      = [⟨User, "use the missing tool"⟩]
    ∧ sessionContinues (converseStep [] [postalTool] (ScanResult.line "use the missing tool")
        (fun _ => Except.ok unknownToolResponse)).outcome = true := by
  constructor <;> rfl

/-- C3: a successful response whose content blocks are all text (and
non-empty) appends exactly one new assistant message — the first text
block's value — and the turn ends. -/
theorem text_response_appends_one_assistant_message
    (c : Conversation) (tools : List Tool) (input : String)
    (post : Request → Except String Response) (resp : Response)
    (b : ResponseMessage) (rest : List ResponseMessage)
    (hexit : toLower input ≠ "exit")
    (hpost : post (builtRequest c tools input) = Except.ok resp)
    (hcontent : resp.content = b :: rest)
    (htext : ∀ blk ∈ resp.content, blk.type = text) :
    (converseStep c tools (ScanResult.line input) post).conversation
      = c ++ [⟨User, input⟩, ⟨Assistant, b.text⟩]
    ∧ (converseStep c tools (ScanResult.line input) post).outcome
        = StepOutcome.answered := by
  have hb : b.type = text := htext b (by rw [hcontent]; exact List.mem_cons_self b rest)
  constructor <;> simp [converseStep, hexit, hpost, hcontent, appendResponse, hb]

theorem text_response_appends_one_assistant_message_witness :
    (converseStep [] [postalTool] (ScanResult.line "hello")
        (fun _ => Except.ok textOnlyResponse)).conversation
      = [⟨User, "hello"⟩, ⟨Assistant, "Hello"⟩]
    ∧ (converseStep [] [postalTool] (ScanResult.line "hello")
        (fun _ => Except.ok textOnlyResponse)).outcome = StepOutcome.answered := by
  have h := text_response_appends_one_assistant_message [] [postalTool] "hello"
    (fun _ => Except.ok textOnlyResponse) textOnlyResponse
    ⟨text, "Hello", "", "", ""⟩ [] (by decide) rfl rfl (by decide)
  simpa using h

/-- C4: when the transport returns an error, the error is reported
(`errorReported` carries the message that `Converse` prints), no assistant
message is appended, the user message of the turn stays in the
conversation, and the session continues. -/
theorem transport_error_preserves_user_message
    (c : Conversation) (tools : List Tool) (input : String)
    (post : Request → Except String Response) (e : String)
    (hexit : toLower input ≠ "exit")
    (hpost : post (builtRequest c tools input) = Except.error e) :
    (converseStep c tools (ScanResult.line input) post).conversation
      = c ++ [⟨User, input⟩]
    ∧ (converseStep c tools (ScanResult.line input) post).outcome
        = StepOutcome.errorReported e
    ∧ sessionContinues (converseStep c tools (ScanResult.line input) post).outcome
        = true := by
  refine ⟨?_, ?_, ?_⟩ <;> simp [converseStep, hexit, hpost, sessionContinues]

theorem transport_error_preserves_user_message_witness :
    (converseStep [] [postalTool] (ScanResult.line "hello")
        (fun _ => Except.error "HTTP 500")).conversation = [⟨User, "hello"⟩]
    ∧ (converseStep [] [postalTool] (ScanResult.line "hello")
        (fun _ => Except.error "HTTP 500")).outcome = StepOutcome.errorReported "HTTP 500"
    ∧ sessionContinues (converseStep [] [postalTool] (ScanResult.line "hello")
        (fun _ => Except.error "HTTP 500")).outcome = true := by
  simpa using transport_error_preserves_user_message [] [postalTool] "hello"
    (fun _ => Except.error "HTTP 500") "HTTP 500" (by decide) rfl

/-- C5: the conversation is append-only FIFO — any run of the loop only
extends the starting conversation (earlier messages are never edited,
removed or reordered), and the message sequence embedded in a request sent
by an iteration extends the prior conversation and is itself a prefix of
the conversation after the iteration. -/
theorem conversation_append_only_fifo
    (c : Conversation) (tools : List Tool)
    (script : List (ScanResult × (Request → Except String Response)))
    (scan : ScanResult) (post : Request → Except String Response) :
    c <+: converseRun c tools script
    ∧ ∀ req, (converseStep c tools scan post).request = some req →
        c <+: req.messages
        ∧ req.messages <+: (converseStep c tools scan post).conversation := by
  refine ⟨converseRun_extends tools script c, ?_⟩
  intro req hreq
  cases scan with
  | eof => simp [converseStep] at hreq
  | line input =>
    by_cases h : toLower input = "exit"
    · simp [converseStep, h] at hreq
    · cases hp : post (builtRequest c tools input) with
      | error e =>
        have hconv : (converseStep c tools (ScanResult.line input) post).conversation
            = c ++ [⟨User, input⟩] := by simp [converseStep, h, hp]
        simp [converseStep, h, hp] at hreq
        subst hreq
        rw [hconv]
        exact ⟨List.prefix_append c _, List.prefix_refl _⟩
      | ok resp =>
        cases hc : resp.content with
        | nil =>
          have hconv : (converseStep c tools (ScanResult.line input) post).conversation
              = c ++ [⟨User, input⟩] := by simp [converseStep, h, hp, hc]
          simp [converseStep, h, hp, hc] at hreq
          subst hreq
          rw [hconv]
          exact ⟨List.prefix_append c _, List.prefix_refl _⟩
        | cons first rest =>
          have hconv : (converseStep c tools (ScanResult.line input) post).conversation
              = appendResponse (c ++ [⟨User, input⟩]) first := by
            simp [converseStep, h, hp, hc]
          simp [converseStep, h, hp, hc] at hreq
          subst hreq
          rw [hconv]
          exact ⟨List.prefix_append c _,
            appendResponse_extends (c ++ [⟨User, input⟩]) first⟩

theorem conversation_append_only_fifo_witness :
    ([] : Conversation) <+: converseRun [] [postalTool]
        [(ScanResult.line "hi", fun _ => Except.error "boom")]
    ∧ ([] : Conversation) <+: (builtRequest [] [postalTool] "hi").messages
    ∧ (builtRequest [] [postalTool] "hi").messages <+:
        (converseStep [] [postalTool] (ScanResult.line "hi")
          (fun _ => Except.error "boom")).conversation := by
  have h := conversation_append_only_fifo [] [postalTool]
    [(ScanResult.line "hi", fun _ => Except.error "boom")]
    (ScanResult.line "hi") (fun _ => Except.error "boom")
  have h2 := h.2 (builtRequest [] [postalTool] "hi") rfl
  exact ⟨h.1, h2.1, h2.2⟩

/-- C6: an input line that case-insensitively matches the exit sentinel
ends the session at once: the conversation is unchanged, no request is
sent, and the loop breaks. -/
theorem exit_sentinel_ends_session
    (c : Conversation) (tools : List Tool) (input : String)
    (post : Request → Except String Response)
    (h : toLower input = "exit") :
    converseStep c tools (ScanResult.line input) post
      = ⟨c, none, StepOutcome.sessionEnd⟩ := by
  simp [converseStep, h]

theorem exit_sentinel_ends_session_witness :
    converseStep [] [postalTool] (ScanResult.line "EXIT")
        (fun _ => Except.error "unused")
      = ⟨[], none, StepOutcome.sessionEnd⟩ :=
  exit_sentinel_ends_session [] [postalTool] "EXIT"
    (fun _ => Except.error "unused") (by decide)

/-- C7: a content block whose kind is neither `text` nor `tool_use` is a
no-op — `AppendResponse` leaves the conversation unchanged on such a
block, and an iteration whose successful response contains such a block
still completes normally (no error, session continues). -/
theorem unknown_block_kind_is_noop
    (c c2 : Conversation) (tools : List Tool) (input : String)
    (post : Request → Except String Response) (resp : Response)
    (blk : ResponseMessage)
    (hexit : toLower input ≠ "exit")
    (hpost : post (builtRequest c tools input) = Except.ok resp)
    (hmem : blk ∈ resp.content)
    (ht : blk.type ≠ text) (htu : blk.type ≠ toolUse) :
    appendResponse c2 blk = c2
    ∧ (converseStep c tools (ScanResult.line input) post).outcome
        = StepOutcome.answered
    ∧ sessionContinues (converseStep c tools (ScanResult.line input) post).outcome
        = true := by
  refine ⟨by simp [appendResponse, ht], ?_, ?_⟩ <;>
  · cases hc : resp.content with
    | nil => rw [hc] at hmem; simp at hmem
    | cons first rest => simp [converseStep, hexit, hpost, hc, sessionContinues]

theorem unknown_block_kind_is_noop_witness :
    appendResponse [⟨User, "hello"⟩] ⟨"thinking", "hmm", "", "", ""⟩
      = [⟨User, "hello"⟩]
    ∧ (converseStep [] [postalTool] (ScanResult.line "hello")
        (fun _ => Except.ok unknownKindResponse)).outcome = StepOutcome.answered
    ∧ sessionContinues (converseStep [] [postalTool] (ScanResult.line "hello")
        (fun _ => Except.ok unknownKindResponse)).outcome = true :=
  unknown_block_kind_is_noop [] [⟨User, "hello"⟩] [postalTool] "hello"
    (fun _ => Except.ok unknownKindResponse) unknownKindResponse
    ⟨"thinking", "hmm", "", "", ""⟩ (by decide) rfl (by decide) (by decide) (by decide)

/-- C8: a transport reply with a non-2xx status makes `Post` return an
error (never a `Response`), and the error message carries the response
body. -/
theorem non_2xx_status_is_error_with_body
    (transport : Request → Except String HttpReply)
    (decode : String → Except String Response) (r : Request) (reply : HttpReply)
    (hok : transport r = Except.ok reply)
    (h2xx : ¬ (200 ≤ reply.status ∧ reply.status ≤ 299)) :
    postRequest transport decode r
      = Except.error ("API request failed with status code: " ++ toString reply.status
          ++ ", response body: " ++ reply.body)
    ∧ ∀ resp : Response, postRequest transport decode r ≠ Except.ok resp := by
  have hne : reply.status ≠ 200 := by
    intro h
    exact h2xx (by omega)
  constructor
  · simp [postRequest, hok, hne]
  · intro resp
    simp [postRequest, hok, hne]

theorem non_2xx_status_is_error_with_body_witness :
    postRequest (fun _ => Except.ok ⟨500, "oops"⟩) (fun _ => Except.error "nope")
        (builtRequest [] [postalTool] "hi")
      = Except.error ("API request failed with status code: " ++ toString (500 : Nat)
          ++ ", response body: " ++ "oops")
    ∧ ∀ resp : Response,
        postRequest (fun _ => Except.ok ⟨500, "oops"⟩) (fun _ => Except.error "nope")
          (builtRequest [] [postalTool] "hi") ≠ Except.ok resp :=
  non_2xx_status_is_error_with_body (fun _ => Except.ok ⟨500, "oops"⟩)
    (fun _ => Except.error "nope") (builtRequest [] [postalTool] "hi")
    ⟨500, "oops"⟩ rfl (by decide)

/-- C9: only the first content block of a successful response can affect
the conversation — the iteration result is a function of the head block
alone, with later blocks discarded — and when the first block is a tool
invocation the conversation gains nothing beyond the user message (no
dispatch happens). -/
theorem only_first_block_affects_conversation
    (c : Conversation) (tools : List Tool) (input : String)
    (post : Request → Except String Response) (resp : Response)
    (b : ResponseMessage) (rest : List ResponseMessage)
    (hexit : toLower input ≠ "exit")
    (hpost : post (builtRequest c tools input) = Except.ok resp)
    (hcontent : resp.content = b :: rest) :
    (converseStep c tools (ScanResult.line input) post).conversation
      = (c ++ [⟨User, input⟩])
        ++ (if b.type = text then [⟨Assistant, b.text⟩] else [])
    ∧ (b.type = toolUse →
        (converseStep c tools (ScanResult.line input) post).conversation
          = c ++ [⟨User, input⟩]) := by
  constructor
  · by_cases hb : b.type = text <;>
      simp [converseStep, hexit, hpost, hcontent, appendResponse, hb]
  · intro htu
    have hb : b.type ≠ text := by
      rw [htu]
      decide
    simp [converseStep, hexit, hpost, hcontent, appendResponse, hb]

theorem only_first_block_affects_conversation_witness :
    (converseStep [] [postalTool] (ScanResult.line "go")
        (fun _ => Except.ok scenarioCResponse)).conversation = [⟨User, "go"⟩] := by
  have h := only_first_block_affects_conversation [] [postalTool] "go"
    (fun _ => Except.ok scenarioCResponse) scenarioCResponse
    ⟨toolUse, "", "t1", "lookup_postal_code", "city: Atlanta"⟩ [] (by decide) rfl rfl
  simpa using h.2 rfl

/-- C10: when the scanner is exhausted (no further input line), the
session ends immediately: the conversation is unchanged and no request is
sent. -/
theorem eof_ends_session (c : Conversation) (tools : List Tool)
    (post : Request → Except String Response) :
    converseStep c tools ScanResult.eof post
      = ⟨c, none, StepOutcome.sessionEnd⟩ := rfl
